import Mathlib

/-!
Shallow embedding of `towerbox.py`: a NetBox → Ansible Tower dynamic
inventory script.  The script pages through two NetBox listing endpoints
(devices and virtual machines), filters records by status and primary IP,
groups the remaining hosts by the `site` and `platform` attributes, and
emits a nested inventory document with a `_meta.hostvars` map.

The embedding models Python-level behaviour precisely where the claims
depend on it:
  * a JSON field of a raw record is `absent` (the key is missing — a
    subscript raises `KeyError`), `null` (the key maps to `None` — a
    further subscript raises `TypeError`), or a value;
  * the builder's `try/except TypeError` catches only `TypeError`;
    `KeyError` propagates and aborts the run;
  * inside the `try`, the hosts-list append happens before the hostvars
    update, and the `_meta_ns['hostvars']` key is created (defaultdict)
    before `entity.hostvars` is evaluated;
  * `dict.update` with an existing key replaces the value in place,
    keeping insertion order; new keys are appended;
  * `ns.update({'_meta': _meta_ns})` replaces an existing `'_meta'` key in
    place or appends it at the end.

The record's `name` field is modelled as a plain string: the spec marks it
required and every claim concerns records that have one.
-/

namespace Towerbox

/-- The state of one JSON key in a raw record: missing key, key mapped to
null, or key mapped to a value. -/
inductive JField (α : Type) where
  | absent
  | null
  | val (a : α)
  deriving DecidableEq, Repr

/-- The two Python exception classes the builder's code paths can raise:
`KeyError` (missing dict key, uncaught by the builder) and `TypeError`
(subscripting / iterating `None`, caught by the builder's `except`). -/
inductive PyError where
  | keyError
  | typeError
  deriving DecidableEq, Repr

/-- The raw JSON payload of one NetBox record, restricted to the fields the
script reads.  Nested one-key objects are flattened to their payload:
`primary_ip` holds the `address` string, `platform`/`device_role`/`role`/
`site` hold the `slug`, `status` holds the `value`, `tags` holds the list
of tag slugs. -/
structure RawRecord where
  name : String
  primary_ip : JField String
  platform : JField String
  device_role : JField String
  role : JField String
  status : JField String
  tags : JField (List String)
  site : JField String
  deriving DecidableEq, Repr

/-- One page of a paginated NetBox listing response: `results` plus the
`next` cursor (`none` = JSON null). -/
structure Page where
  results : List RawRecord
  next : Option String
  deriving DecidableEq, Repr

/-- The two entity kinds iterated by `NetBoxInventory.entity_types`. -/
inductive Kind where
  | device
  | vm
  deriving DecidableEq, Repr

/-- An entity is an entity kind together with the raw record it wraps. -/
abbrev Entity := Kind × RawRecord

/-- A host variable value: a string or a list of strings (the tags). -/
inductive VarValue where
  | str (s : String)
  | strList (l : List String)
  deriving DecidableEq, Repr

/-- One host's variable mapping, in insertion order. -/
abbrev HostVars := List (String × VarValue)

/-- A top-level entry of the inventory document: a group (its `hosts`
list) or the `_meta` record.  The `_meta` record holds `none` when the
`hostvars` key was never created and `some m` when it maps to `m`. -/
inductive TopEntry where
  | group (hosts : List String)
  | meta (hostvars : Option (List (String × HostVars)))
  deriving DecidableEq, Repr

/-- The inventory document: top-level keys in insertion order. -/
abbrev Document := List (String × TopEntry)

instance {ε α : Type} [DecidableEq ε] [DecidableEq α] : DecidableEq (Except ε α)
  | .error a, .error b => if h : a = b then .isTrue (by rw [h]) else .isFalse (by intro hc; cases hc; exact h rfl)
  | .error _, .ok _ => .isFalse (by intro hc; cases hc)
  | .ok _, .error _ => .isFalse (by intro hc; cases hc)
  | .ok a, .ok b => if h : a = b then .isTrue (by rw [h]) else .isFalse (by intro hc; cases hc; exact h rfl)

/-- `s.split('/')[0]`: the part of the string before the first slash. -/
def splitHead (s : String) : String :=
  (s.toList.takeWhile (fun c => c ≠ '/')).asString

/-- `Device.ip_address` / `VirtualMachine.ip_address`: `"undefined"` when
`primary_ip` is null, otherwise the address before the prefix length; a
missing key raises `KeyError`. -/
def ip_address : JField String → Except PyError String
  | .absent => .error .keyError
  | .null => .ok "undefined"
  | .val a => .ok (splitHead a)

/-- A slug-bearing attribute (`platform`, `device_role`, `role`):
`"undefined"` when null, the slug otherwise; missing key raises
`KeyError`. -/
def slugOrUndefined : JField String → Except PyError String
  | .absent => .error .keyError
  | .null => .ok "undefined"
  | .val s => .ok s

/-- `status`: `"undefined"` when null, otherwise the `value` string;
missing key raises `KeyError`. -/
def statusOf : JField String → Except PyError String
  | .absent => .error .keyError
  | .null => .ok "undefined"
  | .val v => .ok v

/-- `self._ns['status']['value']` as read inside `hostvars`: subscripting
null raises `TypeError`, a missing key raises `KeyError`. -/
def statusValueRaw : JField String → Except PyError String
  | .absent => .error .keyError
  | .null => .error .typeError
  | .val v => .ok v

/-- `[slug_dict['slug'] for slug_dict in self._ns['tags']]`: iterating
null raises `TypeError`, a missing key raises `KeyError`. -/
def tagsOf : JField (List String) → Except PyError (List String)
  | .absent => .error .keyError
  | .null => .error .typeError
  | .val l => .ok l

/-- The role accessor: `Device.device_role` reads `device_role`,
`VirtualMachine.role` reads `role`. -/
def roleOf : Kind → RawRecord → Except PyError String
  | .device, r => slugOrUndefined r.device_role
  | .vm, r => slugOrUndefined r.role

/-- The key under which the role is emitted in hostvars:
`netbox_device_role` for devices, `netbox_role` for virtual machines. -/
def roleKey : Kind → String
  | .device => "netbox_device_role"
  | .vm => "netbox_role"

/-- `entity.hostvars` (the inner variable mapping, keyed by the entity's
name at the call site): the dict literal evaluates `ansible_host`, the
role, `netbox_platform`, `netbox_tags`, `netbox_status` in order, so the
first failing field determines the raised exception. -/
def hostvars (k : Kind) (r : RawRecord) : Except PyError HostVars := do
  let ip ← ip_address r.primary_ip
  let role ← roleOf k r
  let pl ← slugOrUndefined r.platform
  let tags ← tagsOf r.tags
  let st ← statusValueRaw r.status
  pure [("ansible_host", .str ip), (roleKey k, .str role),
        ("netbox_platform", .str pl), ("netbox_tags", .strList tags),
        ("netbox_status", .str st)]

/-- `entity[grouping]`: raw-field lookup used for grouping-key
resolution.  The builder only ever asks for `site` and `platform`. -/
def rawGet (r : RawRecord) : String → JField String
  | "site" => r.site
  | "platform" => r.platform
  | _ => .absent

/-- The grouping dimensions, `NetBoxInventory.groupings`. -/
def groupings : List String := ["site", "platform"]

/-- The accumulating state of `as_ansible_namespace`: the group map `ns`
(group name to `hosts` list, insertion-ordered) and `_meta_ns` (`none`
until the `hostvars` key is first created). -/
structure Acc where
  groups : List (String × List String)
  hostvarsMap : Option (List (String × HostVars))
  deriving DecidableEq, Repr

/-- The empty accumulator: `defaultdict`s before any entity is seen. -/
def Acc.init : Acc := ⟨[], none⟩

/-- `ns[slug]['hosts'] += [name]` on the insertion-ordered group map:
append to an existing group's list, or create the group at the end. -/
def appendHost : List (String × List String) → String → String → List (String × List String)
  | [], slug, n => [(slug, [n])]
  | (g, hs) :: rest, slug, n =>
      if g = slug then (g, hs ++ [n]) :: rest
      else (g, hs) :: appendHost rest slug n

/-- `dict.update` with a single-key dict: replace an existing key's value
in place (insertion order kept) or append the new pair. -/
def updateAssoc : List (String × HostVars) → String → HostVars → List (String × HostVars)
  | [], key, v => [(key, v)]
  | (k, w) :: rest, key, v =>
      if k = key then (k, v) :: rest
      else (k, w) :: updateAssoc rest key v

/-- The body of the builder's `try` for one grouping dimension:
resolve `entity[grouping]['slug']` (null → `TypeError`, caught; missing
key → `KeyError`, uncaught), append the name to the group's hosts list,
create the `_meta_ns['hostvars']` key, then evaluate and merge
`entity.hostvars` (a `TypeError` there is caught after the append and
the key creation; a `KeyError` aborts). -/
def processGrouping (acc : Acc) (e : Entity) (g : String) : Except PyError Acc :=
  match rawGet e.2 g with
  | .absent => .error .keyError
  | .null => .ok acc
  | .val slug =>
      let acc1 : Acc := { acc with groups := appendHost acc.groups slug e.2.name }
      let prev := acc1.hostvarsMap.getD []
      match hostvars e.1 e.2 with
      | .error .typeError => .ok { acc1 with hostvarsMap := some prev }
      | .error .keyError => .error .keyError
      | .ok hv => .ok { acc1 with hostvarsMap := some (updateAssoc prev e.2.name hv) }

/-- The per-dimension loop `for grouping in self.groupings`. -/
def runGroupings : Acc → Entity → List String → Except PyError Acc
  | acc, _, [] => .ok acc
  | acc, e, g :: gs =>
      match processGrouping acc e g with
      | .error er => .error er
      | .ok acc2 => runGroupings acc2 e gs

/-- One iteration of the builder's entity loop: evaluate the filter
`entity.status == "active" and not entity.ip_address == "undefined"`
(short-circuit: the address is only read when the status is active), then
run the grouping loop on entities that pass. -/
def processEntity (acc : Acc) (e : Entity) : Except PyError Acc :=
  match statusOf e.2.status with
  | .error er => .error er
  | .ok s =>
      if s = "active" then
        match ip_address e.2.primary_ip with
        | .error er => .error er
        | .ok ip =>
            if ip = "undefined" then .ok acc
            else runGroupings acc e groupings
      else .ok acc

/-- The entity loop `for entity in self.entities`. -/
def runEntities : Acc → List Entity → Except PyError Acc
  | acc, [] => .ok acc
  | acc, e :: es =>
      match processEntity acc e with
      | .error er => .error er
      | .ok acc2 => runEntities acc2 es

/-- `ns.update({'_meta': _meta_ns})` followed by returning `ns`: an
existing group literally named `_meta` is overwritten in place, otherwise
the `_meta` entry is appended at the end. -/
def assemble (groups : List (String × List String))
    (m : Option (List (String × HostVars))) : Document :=
  if groups.any (fun p => p.1 = "_meta") then
    groups.map (fun p => if p.1 = "_meta" then ("_meta", TopEntry.meta m)
                         else (p.1, TopEntry.group p.2))
  else
    groups.map (fun p => (p.1, TopEntry.group p.2)) ++ [("_meta", TopEntry.meta m)]

/-- `NetBoxInventory.as_ansible_namespace`, starting from an already
flattened entity sequence: fold the entity loop from the empty
accumulator and assemble the final document. -/
def as_ansible_namespace (es : List Entity) : Except PyError Document :=
  match runEntities Acc.init es with
  | .error er => .error er
  | .ok acc => .ok (assemble acc.groups acc.hostvarsMap)

/-- The pagination loop of `NetBoxInventory.entities` for one entity
kind, with the server modelled as the sequence of pages it returns:
each iteration issues one GET (counted in the first component) and the
loop continues while `next` is truthy (non-null and non-empty). -/
def fetchPages : List Page → Nat × List RawRecord
  | [] => (0, [])
  | p :: rest =>
      match p.next with
      | none => (1, p.results)
      | some s =>
          if s = "" then (1, p.results)
          else
            let r := fetchPages rest
            (r.1 + 1, p.results ++ r.2)

/-- `NetBoxInventory.entities`: devices first, then virtual machines,
each wrapped in its entity kind. -/
def entities (devPages vmPages : List Page) : List Entity :=
  ((fetchPages devPages).2.map (fun r => (Kind.device, r))) ++
  ((fetchPages vmPages).2.map (fun r => (Kind.vm, r)))

/-- The whole run: page through both kinds and build the namespace. -/
def buildInventory (devPages vmPages : List Page) : Except PyError Document :=
  as_ansible_namespace (entities devPages vmPages)

end Towerbox

namespace Towerbox

/-! Helper definitions used to state and audit the claims. -/

/-- A JSON string literal. -/
def jstr (s : String) : String := "\"" ++ s ++ "\""

/-- A JSON object from already serialized `"key": value` members. -/
def jobj (fields : List String) : String :=
  "\x7b" ++ String.intercalate ", " fields ++ "\x7d"

/-- A JSON array from already serialized elements. -/
def jarr (elems : List String) : String :=
  "[" ++ String.intercalate ", " elems ++ "]"

/-- Serialize one host variable value. -/
def serializeVar : VarValue → String
  | .str s => jstr s
  | .strList l => jarr (l.map jstr)

/-- Serialize one host's variable mapping. -/
def serializeHostVars (hv : HostVars) : String :=
  jobj (hv.map (fun p => jstr p.1 ++ ": " ++ serializeVar p.2))

/-- Serialize a top-level entry of the document. -/
def serializeTop : TopEntry → String
  | .group hosts => jobj [jstr "hosts" ++ ": " ++ jarr (hosts.map jstr)]
  | .meta none => jobj []
  | .meta (some m) =>
      jobj [jstr "hostvars" ++ ": " ++
            jobj (m.map (fun p => jstr p.1 ++ ": " ++ serializeHostVars p.2))]

/-- `json.dumps` over the insertion-ordered document. -/
def serializeDoc (d : Document) : String :=
  jobj (d.map (fun p => jstr p.1 ++ ": " ++ serializeTop p.2))

/-- The serialized bytes a whole run prints (errors modelled as a marker,
since an aborted run prints no document). -/
def serializeRun (devPages vmPages : List Page) : String :=
  match buildInventory devPages vmPages with
  | .error _ => "aborted"
  | .ok doc => serializeDoc doc

/-- The hosts list of the group named `g` in a document. -/
def hostsOf (doc : Document) (g : String) : List String :=
  match doc.find? (fun p => p.1 == g) with
  | some (_, TopEntry.group hs) => hs
  | _ => []

/-- The payload of the document's `_meta` entry. -/
def metaHostvars (doc : Document) : Option (List (String × HostVars)) :=
  match doc.find? (fun p => p.1 == "_meta") with
  | some (_, TopEntry.meta m) => m
  | _ => none

/-- The host names that have an entry under `_meta.hostvars`. -/
def hvNames (doc : Document) : List String :=
  ((metaHostvars doc).getD []).map (fun p => p.1)

/-- The device record of the spec's worked scenario. -/
def c1Record : RawRecord :=
  { name := "host1", primary_ip := .val "10.0.0.5/24", platform := .val "linux",
    device_role := .val "web", role := .absent, status := .val "active",
    tags := .val ["prod"], site := .val "nyc1" }

/-- An active record with all fields present, parameterized by name,
address, site slug, platform slug, role slug and tag slugs. -/
def mkActiveRecord (n a s p r : String) (t : List String) : RawRecord :=
  { name := n, primary_ip := .val a, platform := .val p, device_role := .val r,
    role := .val r, status := .val "active", tags := .val t, site := .val s }

end Towerbox

namespace Towerbox

/-! Generic lemmas about the builder's loops. -/

/-- Splitting the entity loop across a list append. -/
theorem runEntities_append (acc : Acc) (l1 l2 : List Entity) :
    runEntities acc (l1 ++ l2) =
      match runEntities acc l1 with
      | .error er => .error er
      | .ok acc2 => runEntities acc2 l2 := by
  induction l1 generalizing acc with
  | nil => simp [runEntities]
  | cons e es ih =>
      simp only [List.cons_append, runEntities]
      cases processEntity acc e with
      | error er => rfl
      | ok acc2 => exact ih acc2

end Towerbox

namespace Towerbox

/-- Claim C1: the single active device record of the worked scenario,
delivered in one device page with a null `next` cursor (and an empty
virtual-machine listing), yields exactly the claimed inventory document:
the `nyc1` and `linux` groups each listing `host1`, and `_meta.hostvars`
holding `host1`'s variables. -/
theorem c1_single_device_scenario :
    buildInventory [{ results := [c1Record], next := none }]
        [{ results := [], next := none }] =
      .ok [("nyc1", .group ["host1"]), ("linux", .group ["host1"]),
           ("_meta", .meta (some [("host1",
             [("ansible_host", .str "10.0.0.5"),
              ("netbox_device_role", .str "web"),
              ("netbox_platform", .str "linux"),
              ("netbox_tags", .strList ["prod"]),
              ("netbox_status", .str "active")])]))] := by
  decide

/-- Claim C2: an entity whose status reads as a value other than
`"active"`, or whose `primary_ip` field is null (so its address resolves
to `"undefined"`), is skipped without an error: the run over a record
sequence containing it equals the run over the sequence without it, so
the entity lands in no group's hosts list and gets no hostvars entry. -/
theorem c2_filtered_out_entity_skipped (es1 es2 : List Entity) (k : Kind)
    (r : RawRecord) (s : String)
    (h1 : statusOf r.status = .ok s)
    (h2 : s ≠ "active" ∨ r.primary_ip = .null) :
    as_ansible_namespace (es1 ++ (k, r) :: es2) =
      as_ansible_namespace (es1 ++ es2) := by
  have hstep : ∀ acc, processEntity acc (k, r) = .ok acc := by
    intro acc
    unfold processEntity
    rw [show (k, r).2 = r from rfl, h1]
    rcases h2 with h | h
    · simp [h]
    · by_cases hs : s = "active"
      · simp [hs, h, ip_address]
      · simp [hs]
  unfold as_ansible_namespace
  rw [runEntities_append, runEntities_append]
  cases runEntities Acc.init es1 with
  | error er => rfl
  | ok acc => simp only [runEntities, hstep acc]

/-- Witness for C2: a device record with status `planned` contributes
nothing to the run. -/
theorem c2_filtered_out_entity_skipped_witness :
    as_ansible_namespace ([] ++ (Kind.device,
        { name := "host9", primary_ip := .val "10.0.0.9/24",
          platform := .val "linux", device_role := .val "web",
          role := .absent, status := .val "planned",
          tags := .val [], site := .val "nyc1" }) :: []) =
      as_ansible_namespace ([] ++ []) :=
  c2_filtered_out_entity_skipped [] [] Kind.device _ "planned" rfl
    (Or.inl (by decide))

end Towerbox

namespace Towerbox

/-- A well-formed active device record whose raw payload lacks the `site`
key entirely (as opposed to holding null). -/
def c4Record : RawRecord :=
  { name := "host2", primary_ip := .val "10.0.0.7/24", platform := .val "linux",
    device_role := .val "web", role := .absent, status := .val "active",
    tags := .val ["prod"], site := .absent }

/-- Counterexample to claim C4 as stated: for a filtered-in device whose
record has no `site` key at all, the builder does not skip the dimension —
the `entity[grouping]` lookup raises a `KeyError`, which the
`except TypeError` handler does not catch, and the run aborts. -/
theorem c4_counterexample :
    as_ansible_namespace [(Kind.device, c4Record)] = .error .keyError := by
  decide

/-- Claim C4 (amended): a grouping dimension whose attribute is present
but null (not applicable to the entity) is skipped without an error and
without grouping the host under `"undefined"`: processing that dimension
leaves the accumulated namespace unchanged.  (An attribute key missing
from the record entirely instead raises an uncaught `KeyError`.) -/
theorem c4_null_attribute_dimension_skipped (acc : Acc) (e : Entity) (g : String)
    (h : rawGet e.2 g = .null) : processGrouping acc e g = .ok acc := by
  unfold processGrouping
  rw [h]

/-- Witness for the amended C4: a virtual machine whose `site` is null is
not grouped by site, and no error is raised. -/
theorem c4_null_attribute_dimension_skipped_witness :
    processGrouping Acc.init
      (Kind.vm,
       { name := "vm1", primary_ip := .val "10.0.1.7/24", platform := .val "linux",
         device_role := .absent, role := .val "app", status := .val "active",
         tags := .val [], site := .null }) "site" = .ok Acc.init :=
  c4_null_attribute_dimension_skipped Acc.init _ "site" rfl

/-- Claim C6: with the source modelled as the sequence of pages it
returns, the pagination loop for one entity kind issues exactly one GET
per page: when the first `k - 1` pages carry a truthy `next` cursor and
page `k`'s `next` is null, exactly `k` GET requests are counted and the
loop terminates. -/
theorem c6_pagination_request_count (front : List Page) (last : Page)
    (h1 : ∀ p ∈ front, ∃ s, p.next = some s ∧ s ≠ "")
    (h2 : last.next = none) :
    (fetchPages (front ++ [last])).1 = front.length + 1 := by
  induction front with
  | nil => simp [fetchPages, h2]
  | cons p rest ih =>
      obtain ⟨s, hs, hne⟩ := h1 p (List.mem_cons_self p rest)
      have ihr := ih (fun q hq => h1 q (List.mem_cons_of_mem p hq))
      simp [fetchPages, hs, hne, ihr]

/-- Witness for C6: a two-page listing (the first page pointing at the
second, the second with a null cursor) costs exactly two GETs. -/
theorem c6_pagination_request_count_witness :
    (fetchPages ([{ results := [c1Record], next := some "/api/dcim/devices/?limit=50&offset=50" }] ++
      [{ results := [], next := none }])).1 =
      [({ results := [c1Record], next := some "/api/dcim/devices/?limit=50&offset=50" } : Page)].length + 1 :=
  c6_pagination_request_count _ _
    (by
      intro p hp
      rw [List.mem_singleton] at hp
      exact ⟨"/api/dcim/devices/?limit=50&offset=50", by rw [hp], by decide⟩)
    rfl

/-- Counterexample to claim C7 as stated: on a run where no entity passes
the filter (here: both listings are empty), the returned document's
`_meta` entry maps to an empty record with no `hostvars` key — the
`hostvars` key of `_meta_ns` is only ever created inside the grouping
branch. -/
theorem c7_counterexample :
    buildInventory [{ results := [], next := none }] [{ results := [], next := none }] =
      .ok [("_meta", TopEntry.meta none)] := by
  decide

/-- The assembled document always carries the `_meta` entry with the
accumulated `_meta_ns` payload. -/
theorem meta_mem_assemble (gs : List (String × List String))
    (m : Option (List (String × HostVars))) :
    ("_meta", TopEntry.meta m) ∈ assemble gs m := by
  unfold assemble
  by_cases h : gs.any (fun p => p.1 = "_meta") = true
  · rw [if_pos h]
    rcases List.any_eq_true.mp h with ⟨p, hp, hpeq⟩
    refine List.mem_map.mpr ⟨p, hp, ?_⟩
    simp only [decide_eq_true_eq] at hpeq
    rw [if_pos hpeq]
  · rw [if_neg h]
    exact List.mem_append_right _ (List.mem_singleton.mpr rfl)

/-- Claim C7 (amended): every successfully returned document contains a
`_meta` entry; its record need not contain a `hostvars` key — when no
filtered-in entity resolves a grouping dimension, `_meta` maps to an
empty record. -/
theorem c7_meta_entry_always_present (devPages vmPages : List Page) (doc : Document)
    (h : buildInventory devPages vmPages = .ok doc) :
    ∃ m, ("_meta", TopEntry.meta m) ∈ doc := by
  unfold buildInventory as_ansible_namespace at h
  cases hr : runEntities Acc.init (entities devPages vmPages) with
  | error er => rw [hr] at h; cases h
  | ok acc =>
      rw [hr] at h
      injection h with h2
      subst h2
      exact ⟨acc.hostvarsMap, meta_mem_assemble acc.groups acc.hostvarsMap⟩

/-- Witness for the amended C7: the empty run's document contains its
`_meta` entry. -/
theorem c7_meta_entry_always_present_witness :
    ∃ m, ("_meta", TopEntry.meta m) ∈ ([("_meta", TopEntry.meta none)] : Document) :=
  c7_meta_entry_always_present [{ results := [], next := none }]
    [{ results := [], next := none }] _ (by decide)

/-- Claim C9: the builder is deterministic — two runs over the same fixed
page sequences (same records in the same order) produce byte-identical
serialized documents.  The embedding is a pure function of the input
record sequence, so equal inputs give equal serialized bytes. -/
theorem c9_deterministic_output (devPages1 vmPages1 devPages2 vmPages2 : List Page)
    (hdev : devPages1 = devPages2) (hv : vmPages1 = vmPages2) :
    serializeRun devPages1 vmPages1 = serializeRun devPages2 vmPages2 := by
  subst hdev
  subst hv
  rfl

/-- Witness for C9: re-running the worked scenario reproduces the same
bytes. -/
theorem c9_deterministic_output_witness :
    serializeRun [{ results := [c1Record], next := none }] [{ results := [], next := none }] =
      serializeRun [{ results := [c1Record], next := none }] [{ results := [], next := none }] :=
  c9_deterministic_output _ _ _ _ rfl rfl

end Towerbox

namespace Towerbox

/-- Every hosts list stored in the accumulated group map is non-empty. -/
def GroupsNonempty (acc : Acc) : Prop := ∀ p ∈ acc.groups, p.2 ≠ []

/-- Appending a host keeps every hosts list non-empty. -/
theorem appendHost_nonempty (gs : List (String × List String)) (slug n : String)
    (h : ∀ p ∈ gs, p.2 ≠ []) : ∀ p ∈ appendHost gs slug n, p.2 ≠ [] := by
  induction gs with
  | nil =>
      intro p hp
      rw [show appendHost [] slug n = [(slug, [n])] from rfl, List.mem_singleton] at hp
      subst hp
      simp
  | cons q rest ih =>
      obtain ⟨g, hs⟩ := q
      intro p hp
      by_cases hg : g = slug
      · rw [show appendHost ((g, hs) :: rest) slug n =
            if g = slug then (g, hs ++ [n]) :: rest else (g, hs) :: appendHost rest slug n from rfl,
          if_pos hg, List.mem_cons] at hp
        rcases hp with hp | hp
        · subst hp; simp
        · exact h p (List.mem_cons_of_mem _ hp)
      · rw [show appendHost ((g, hs) :: rest) slug n =
            if g = slug then (g, hs ++ [n]) :: rest else (g, hs) :: appendHost rest slug n from rfl,
          if_neg hg, List.mem_cons] at hp
        rcases hp with hp | hp
        · subst hp; exact h (g, hs) (List.mem_cons_self _ _)
        · exact ih (fun q hq => h q (List.mem_cons_of_mem _ hq)) p hp

/-- Preservation of a state predicate across the grouping loop. -/
theorem runGroupings_preserve (P : Acc → Prop) (e : Entity)
    (step : ∀ acc g, P acc → ∀ acc2, processGrouping acc e g = .ok acc2 → P acc2) :
    ∀ gs acc acc2, runGroupings acc e gs = .ok acc2 → P acc → P acc2 := by
  intro gs
  induction gs with
  | nil =>
      intro acc acc2 h hp
      injection h with h2
      subst h2
      exact hp
  | cons g gs ih =>
      intro acc acc2 h hp
      rw [show runGroupings acc e (g :: gs) =
          match processGrouping acc e g with
          | .error er => .error er
          | .ok acc1 => runGroupings acc1 e gs from rfl] at h
      cases hg : processGrouping acc e g with
      | error er => rw [hg] at h; cases h
      | ok acc1 =>
          rw [hg] at h
          exact ih acc1 acc2 h (step acc g hp acc1 hg)

/-- Preservation of a state predicate across the entity loop, given a
per-entity side condition. -/
theorem runEntities_preserve (P : Acc → Prop) (Q : Entity → Prop)
    (step : ∀ acc e, Q e → P acc → ∀ acc2, processEntity acc e = .ok acc2 → P acc2) :
    ∀ es, (∀ e ∈ es, Q e) → ∀ acc acc2, runEntities acc es = .ok acc2 → P acc → P acc2 := by
  intro es
  induction es with
  | nil =>
      intro _ acc acc2 h hp
      injection h with h2
      subst h2
      exact hp
  | cons e es ih =>
      intro hq acc acc2 h hp
      rw [show runEntities acc (e :: es) =
          match processEntity acc e with
          | .error er => .error er
          | .ok acc1 => runEntities acc1 es from rfl] at h
      cases he : processEntity acc e with
      | error er => rw [he] at h; cases h
      | ok acc1 =>
          rw [he] at h
          exact ih (fun x hx => hq x (List.mem_cons_of_mem _ hx)) acc1 acc2 h
            (step acc e (hq e (List.mem_cons_self _ _)) hp acc1 he)

/-- One grouping step keeps every hosts list non-empty. -/
theorem processGrouping_groups_nonempty (acc : Acc) (e : Entity) (g : String)
    (hp : GroupsNonempty acc) (acc2 : Acc) (h : processGrouping acc e g = .ok acc2) :
    GroupsNonempty acc2 := by
  unfold processGrouping at h
  split at h
  · cases h
  · injection h with h2; subst h2; exact hp
  · split at h
    · injection h with h2
      subst h2
      exact appendHost_nonempty acc.groups _ _ hp
    · cases h
    · injection h with h2
      subst h2
      exact appendHost_nonempty acc.groups _ _ hp

/-- One entity-loop step keeps every hosts list non-empty. -/
theorem processEntity_groups_nonempty (acc : Acc) (e : Entity)
    (hp : GroupsNonempty acc) (acc2 : Acc) (h : processEntity acc e = .ok acc2) :
    GroupsNonempty acc2 := by
  unfold processEntity at h
  split at h
  · cases h
  · split at h
    · split at h
      · cases h
      · split at h
        · injection h with h2; subst h2; exact hp
        · exact runGroupings_preserve GroupsNonempty e
            (fun a g hpp a2 hh => processGrouping_groups_nonempty a e g hpp a2 hh)
            groupings acc acc2 h hp
    · injection h with h2; subst h2; exact hp

/-- A group entry of the assembled document comes from the accumulated
group map. -/
theorem group_mem_assemble (gs : List (String × List String))
    (m : Option (List (String × HostVars))) (g : String) (hosts : List String)
    (h : (g, TopEntry.group hosts) ∈ assemble gs m) : (g, hosts) ∈ gs := by
  unfold assemble at h
  by_cases hc : gs.any (fun p => p.1 = "_meta") = true
  · rw [if_pos hc] at h
    rcases List.mem_map.mp h with ⟨p, hp, heq⟩
    obtain ⟨a, b⟩ := p
    by_cases hm : a = "_meta"
    · rw [if_pos (show (a, b).1 = "_meta" from hm)] at heq
      simp at heq
    · rw [if_neg (show ¬ (a, b).1 = "_meta" from hm)] at heq
      obtain ⟨h1, h2⟩ := Prod.mk.injEq .. ▸ heq
      injection h2 with h3
      obtain rfl : a = g := h1
      obtain rfl : b = hosts := h3
      exact hp
  · rw [if_neg hc] at h
    rcases List.mem_append.mp h with h | h
    · rcases List.mem_map.mp h with ⟨p, hp, heq⟩
      obtain ⟨a, b⟩ := p
      obtain ⟨h1, h2⟩ := Prod.mk.injEq .. ▸ heq
      injection h2 with h3
      obtain rfl : a = g := h1
      obtain rfl : b = hosts := h3
      exact hp
    · rw [List.mem_singleton] at h
      simp at h

/-- Claim C8: in every successfully returned document, each top-level
entry other than `_meta` is a group with a non-empty hosts list — a
group exists only because the grouping branch appended at least one host
to it. -/
theorem c8_groups_never_empty (devPages vmPages : List Page) (doc : Document)
    (h : buildInventory devPages vmPages = .ok doc) :
    ∀ g hosts, (g, TopEntry.group hosts) ∈ doc → hosts ≠ [] := by
  unfold buildInventory as_ansible_namespace at h
  cases hr : runEntities Acc.init (entities devPages vmPages) with
  | error er => rw [hr] at h; cases h
  | ok acc =>
      rw [hr] at h
      injection h with h2
      subst h2
      have hacc : GroupsNonempty acc :=
        runEntities_preserve GroupsNonempty (fun _ => True)
          (fun a e _ hpp a2 hh => processEntity_groups_nonempty a e hpp a2 hh)
          _ (fun _ _ => trivial) Acc.init acc hr (fun p hp => absurd hp (List.not_mem_nil p))
      intro g hosts hmem
      exact hacc (g, hosts) (group_mem_assemble acc.groups acc.hostvarsMap g hosts hmem)

/-- Witness for C8: the worked scenario's document has only non-empty
groups; instantiate at its `nyc1` group. -/
theorem c8_groups_never_empty_witness : (["host1"] : List String) ≠ [] :=
  c8_groups_never_empty [{ results := [c1Record], next := none }]
    [{ results := [], next := none }]
    [("nyc1", .group ["host1"]), ("linux", .group ["host1"]),
     ("_meta", .meta (some [("host1",
       [("ansible_host", .str "10.0.0.5"), ("netbox_device_role", .str "web"),
        ("netbox_platform", .str "linux"), ("netbox_tags", .strList ["prod"]),
        ("netbox_status", .str "active")])]))]
    (by decide) "nyc1" ["host1"] (List.mem_cons_self _ _)

end Towerbox

namespace Towerbox

/-- Any name in any hosts list after an append was already hosted or is
the appended name. -/
theorem mem_appendHost (gs : List (String × List String)) (slug n : String)
    (p : String × List String) (hp : p ∈ appendHost gs slug n) :
    ∀ x ∈ p.2, (∃ q ∈ gs, x ∈ q.2) ∨ x = n := by
  induction gs with
  | nil =>
      rw [show appendHost [] slug n = [(slug, [n])] from rfl, List.mem_singleton] at hp
      subst hp
      intro x hx
      exact Or.inr (List.mem_singleton.mp hx)
  | cons q rest ih =>
      obtain ⟨g, hs⟩ := q
      rw [show appendHost ((g, hs) :: rest) slug n =
          if g = slug then (g, hs ++ [n]) :: rest
          else (g, hs) :: appendHost rest slug n from rfl] at hp
      by_cases hg : g = slug
      · rw [if_pos hg, List.mem_cons] at hp
        rcases hp with hp | hp
        · subst hp
          intro x hx
          rcases List.mem_append.mp hx with hx | hx
          · exact Or.inl ⟨(g, hs), List.mem_cons_self _ _, hx⟩
          · exact Or.inr (List.mem_singleton.mp hx)
        · intro x hx
          exact Or.inl ⟨p, List.mem_cons_of_mem _ hp, hx⟩
      · rw [if_neg hg, List.mem_cons] at hp
        rcases hp with hp | hp
        · subst hp
          intro x hx
          exact Or.inl ⟨(g, hs), List.mem_cons_self _ _, hx⟩
        · intro x hx
          rcases ih hp x hx with ⟨q2, hq2, hxq⟩ | hx2
          · exact Or.inl ⟨q2, List.mem_cons_of_mem _ hq2, hxq⟩
          · exact Or.inr hx2

/-- Updating a key preserves all existing keys. -/
theorem mem_keys_updateAssoc_of_mem (mhv : List (String × HostVars)) (key : String)
    (v : HostVars) (x : String) (hx : x ∈ mhv.map (fun q => q.1)) :
    x ∈ (updateAssoc mhv key v).map (fun q => q.1) := by
  induction mhv with
  | nil => simp at hx
  | cons q rest ih =>
      obtain ⟨a, b⟩ := q
      rw [show updateAssoc ((a, b) :: rest) key v =
          if a = key then (a, v) :: rest
          else (a, b) :: updateAssoc rest key v from rfl]
      by_cases ha : a = key
      · rw [if_pos ha]
        simpa using hx
      · rw [if_neg ha]
        rw [List.map_cons, List.mem_cons] at hx ⊢
        rcases hx with hx | hx
        · exact Or.inl hx
        · exact Or.inr (ih hx)

/-- The updated key is among the keys after an update. -/
theorem key_mem_updateAssoc (mhv : List (String × HostVars)) (key : String) (v : HostVars) :
    key ∈ (updateAssoc mhv key v).map (fun q => q.1) := by
  induction mhv with
  | nil => simp [updateAssoc]
  | cons q rest ih =>
      obtain ⟨a, b⟩ := q
      rw [show updateAssoc ((a, b) :: rest) key v =
          if a = key then (a, v) :: rest
          else (a, b) :: updateAssoc rest key v from rfl]
      by_cases ha : a = key
      · rw [if_pos ha]
        simp [ha]
      · rw [if_neg ha]
        simpa using Or.inr ih

end Towerbox

namespace Towerbox

/-- When some accumulated group is literally named `_meta`, the mapped
document's first `_meta` entry is the replaced meta record. -/
theorem find_meta_mapped (gs : List (String × List String))
    (m : Option (List (String × HostVars)))
    (h : gs.any (fun p => p.1 = "_meta") = true) :
    (gs.map (fun p => if p.1 = "_meta" then ("_meta", TopEntry.meta m)
                      else (p.1, TopEntry.group p.2))).find?
        (fun p => p.1 == "_meta") = some ("_meta", TopEntry.meta m) := by
  induction gs with
  | nil => cases h
  | cons q rest ih =>
      obtain ⟨a, b⟩ := q
      by_cases ha : a = "_meta"
      · simp [List.find?, ha]
      · have hrest : rest.any (fun p => p.1 = "_meta") = true := by
          simpa [ha] using h
        simp [List.find?, ha, beq_eq_false_iff_ne.mpr ha, ih hrest]

/-- When no accumulated group is named `_meta`, the document's `_meta`
lookup lands on the appended meta entry. -/
theorem find_meta_appended (gs : List (String × List String)) (tail : Document)
    (h : ∀ p ∈ gs, p.1 ≠ "_meta") :
    ((gs.map (fun p => (p.1, TopEntry.group p.2))) ++ tail).find?
        (fun p => p.1 == "_meta") = tail.find? (fun p => p.1 == "_meta") := by
  induction gs with
  | nil => rfl
  | cons q rest ih =>
      obtain ⟨a, b⟩ := q
      have ha : a ≠ "_meta" := h (a, b) (List.mem_cons_self _ _)
      simp only [List.map_cons, List.cons_append]
      simp [List.find?, beq_eq_false_iff_ne.mpr ha,
        ih (fun p hp => h p (List.mem_cons_of_mem _ hp))]

/-- The assembled document's `_meta` payload is the accumulated
`_meta_ns`. -/
theorem metaHostvars_assemble (gs : List (String × List String))
    (m : Option (List (String × HostVars))) :
    metaHostvars (assemble gs m) = m := by
  unfold metaHostvars assemble
  by_cases hc : gs.any (fun p => p.1 = "_meta") = true
  · rw [if_pos hc, find_meta_mapped gs m hc]
  · rw [if_neg hc]
    have hall : ∀ p ∈ gs, p.1 ≠ "_meta" := by
      intro p hp hmeta
      exact hc (List.any_eq_true.mpr ⟨p, hp, by simp [hmeta]⟩)
    rw [find_meta_appended gs _ hall]
    rfl

end Towerbox

namespace Towerbox

/-- Every host name in any accumulated group's hosts list has an entry in
the accumulated hostvars map. -/
def HostedHaveVars (acc : Acc) : Prop :=
  ∀ p ∈ acc.groups, ∀ n ∈ p.2, n ∈ (acc.hostvarsMap.getD []).map (fun q => q.1)

/-- One grouping step preserves the hosted-implies-hostvars invariant,
provided the entity's `hostvars` computation does not raise the caught
`TypeError`. -/
theorem processGrouping_hosted (acc : Acc) (e : Entity) (g : String)
    (hq : hostvars e.1 e.2 ≠ .error .typeError)
    (hp : HostedHaveVars acc) (acc2 : Acc) (h : processGrouping acc e g = .ok acc2) :
    HostedHaveVars acc2 := by
  unfold processGrouping at h
  cases hg : rawGet e.2 g with
  | absent => rw [hg] at h; cases h
  | null =>
      rw [hg] at h
      injection h with h2
      subst h2
      exact hp
  | val slug =>
      rw [hg] at h
      cases hh : hostvars e.1 e.2 with
      | error er =>
          cases er with
          | typeError => exact absurd hh hq
          | keyError => rw [hh] at h; cases h
      | ok hv =>
          rw [hh] at h
          injection h with h2
          subst h2
          intro p hpmem n hn
          rcases mem_appendHost acc.groups slug e.2.name p hpmem n hn with ⟨q, hq2, hnq⟩ | hn2
          · exact mem_keys_updateAssoc_of_mem _ _ _ _ (hp q hq2 n hnq)
          · subst hn2
            exact key_mem_updateAssoc _ _ _

/-- One entity-loop step preserves the hosted-implies-hostvars
invariant under the same side condition. -/
theorem processEntity_hosted (acc : Acc) (e : Entity)
    (hq : hostvars e.1 e.2 ≠ .error .typeError)
    (hp : HostedHaveVars acc) (acc2 : Acc) (h : processEntity acc e = .ok acc2) :
    HostedHaveVars acc2 := by
  unfold processEntity at h
  split at h
  · cases h
  · split at h
    · split at h
      · cases h
      · split at h
        · injection h with h2; subst h2; exact hp
        · exact runGroupings_preserve HostedHaveVars e
            (fun a g hpp a2 hh => processGrouping_hosted a e g hq hpp a2 hh)
            groupings acc acc2 h hp
    · injection h with h2; subst h2; exact hp

/-- A device record that is active and addressable but whose `tags` field
is null: its `hostvars` computation raises a `TypeError` after the host
has already been appended to its groups. -/
def c3Record : RawRecord :=
  { name := "host1", primary_ip := .val "10.0.0.5/24", platform := .val "linux",
    device_role := .val "web", role := .absent, status := .val "active",
    tags := .null, site := .val "nyc1" }

/-- The document the builder returns for `c3Record` alone. -/
def c3Doc : Document :=
  [("nyc1", .group ["host1"]), ("linux", .group ["host1"]),
   ("_meta", .meta (some []))]

/-- Counterexample to claim C3 as stated: for the single filtered-in
device `c3Record` (null `tags`), the returned document lists `host1` in
the `nyc1` and `linux` groups, yet `_meta.hostvars` is empty — the
`TypeError` raised while evaluating `entity.hostvars` is swallowed by the
grouping loop's handler after the hosts-list append already happened, so
a grouped host has no hostvars entry. -/
theorem c3_counterexample :
    as_ansible_namespace [(Kind.device, c3Record)] = .ok c3Doc ∧
    "host1" ∈ hostsOf c3Doc "nyc1" ∧ hvNames c3Doc = [] :=
  ⟨by decide, by decide, rfl⟩

/-- Claim C3 (amended): in every successfully returned document, every
host name appearing in any group's hosts list has an entry under
`_meta.hostvars`, provided no processed entity's `hostvars` computation
raises a (caught) `TypeError` — in particular whenever every record's
`tags` field is a list.  (With a null `tags` field the invariant fails:
see the counterexample.) -/
theorem c3_hosted_names_have_hostvars (devPages vmPages : List Page) (doc : Document)
    (hT : ∀ e ∈ entities devPages vmPages, hostvars e.1 e.2 ≠ .error .typeError)
    (hB : buildInventory devPages vmPages = .ok doc) :
    ∀ g hosts, (g, TopEntry.group hosts) ∈ doc → ∀ n ∈ hosts, n ∈ hvNames doc := by
  unfold buildInventory as_ansible_namespace at hB
  cases hr : runEntities Acc.init (entities devPages vmPages) with
  | error er => rw [hr] at hB; cases hB
  | ok acc =>
      rw [hr] at hB
      injection hB with h2
      subst h2
      have hacc : HostedHaveVars acc :=
        runEntities_preserve HostedHaveVars
          (fun e => hostvars e.1 e.2 ≠ .error .typeError)
          (fun a e hqe hpp a2 hh => processEntity_hosted a e hqe hpp a2 hh)
          _ hT Acc.init acc hr (fun p hp => absurd hp (List.not_mem_nil p))
      intro g hosts hmem n hn
      have hgs : (g, hosts) ∈ acc.groups :=
        group_mem_assemble acc.groups acc.hostvarsMap g hosts hmem
      have := hacc (g, hosts) hgs n hn
      unfold hvNames
      rw [metaHostvars_assemble]
      exact this

/-- Witness for the amended C3: in the worked scenario every grouped host
(`host1` in `nyc1`) has a hostvars entry. -/
theorem c3_hosted_names_have_hostvars_witness :
    "host1" ∈ hvNames
      [("nyc1", .group ["host1"]), ("linux", .group ["host1"]),
       ("_meta", .meta (some [("host1",
         [("ansible_host", .str "10.0.0.5"), ("netbox_device_role", .str "web"),
          ("netbox_platform", .str "linux"), ("netbox_tags", .strList ["prod"]),
          ("netbox_status", .str "active")])]))] :=
  c3_hosted_names_have_hostvars [{ results := [c1Record], next := none }]
    [{ results := [], next := none }] _
    (by decide)
    (by decide) "nyc1" ["host1"] (List.mem_cons_self _ _) "host1"
    (List.mem_cons_self _ _)

end Towerbox

namespace Towerbox

/-- The document returned when the worked scenario's device record is
delivered twice. -/
def c5Doc : Document :=
  [("nyc1", .group ["host1", "host1"]), ("linux", .group ["host1", "host1"]),
   ("_meta", .meta (some [("host1",
     [("ansible_host", .str "10.0.0.5"), ("netbox_device_role", .str "web"),
      ("netbox_platform", .str "linux"), ("netbox_tags", .strList ["prod"]),
      ("netbox_status", .str "active")])]))]

/-- Counterexample to claim C5 as stated: when the record set contains
two filtered-in entities with the same name (here the same device record
twice), each such entity resolves both grouping dimensions and yet its
name appears twice — not exactly once — in each group's hosts list. -/
theorem c5_counterexample :
    as_ansible_namespace [(Kind.device, c1Record), (Kind.device, c1Record)] = .ok c5Doc ∧
    statusOf c1Record.status = .ok "active" ∧
    (hostsOf c5Doc "nyc1").count "host1" = 2 :=
  ⟨by decide, rfl, by decide⟩

/-- Claim C5 (amended): for a record set whose single entity is
filtered-in, resolves both grouping dimensions to distinct slugs (neither
named `_meta`), and has a list-valued `tags` field, the entity's name
appears exactly once in each of the two groups' hosts lists and exactly
one `_meta.hostvars` entry exists for it — merging the hostvars under the
second dimension neither duplicates nor corrupts the entry. -/
theorem c5_both_dimensions_once_each (k : Kind) (n a s p r : String) (t : List String)
    (hip : splitHead a ≠ "undefined") (hsp : s ≠ p)
    (hs : s ≠ "_meta") (hp : p ≠ "_meta") :
    as_ansible_namespace [(k, mkActiveRecord n a s p r t)] =
      .ok [(s, .group [n]), (p, .group [n]),
           ("_meta", .meta (some [(n,
             [("ansible_host", .str (splitHead a)), (roleKey k, .str r),
              ("netbox_platform", .str p), ("netbox_tags", .strList t),
              ("netbox_status", .str "active")])]))] := by
  cases k <;>
  simp [as_ansible_namespace, runEntities, processEntity, mkActiveRecord, statusOf,
    ip_address, hip, runGroupings, processGrouping, rawGet, appendHost, hostvars,
    roleOf, roleKey, slugOrUndefined, tagsOf, statusValueRaw, updateAssoc, assemble,
    groupings, Acc.init, bind, Except.bind, pure, Except.pure, hsp, hs, hp]

/-- Witness for the amended C5: the worked scenario's record, resolving
`nyc1` and `linux`, lands once in each group with one hostvars entry. -/
theorem c5_both_dimensions_once_each_witness :
    as_ansible_namespace [(Kind.device, mkActiveRecord "host1" "10.0.0.5/24" "nyc1" "linux" "web" ["prod"])] =
      .ok [("nyc1", .group ["host1"]), ("linux", .group ["host1"]),
           ("_meta", .meta (some [("host1",
             [("ansible_host", .str (splitHead "10.0.0.5/24")), (roleKey Kind.device, .str "web"),
              ("netbox_platform", .str "linux"), ("netbox_tags", .strList ["prod"]),
              ("netbox_status", .str "active")])]))] :=
  c5_both_dimensions_once_each Kind.device "host1" "10.0.0.5/24" "nyc1" "linux" "web"
    ["prod"] (by decide) (by decide) (by decide) (by decide)

/-- Claim C10: when a filtered-in device and a filtered-in virtual
machine share the same name (and here the same site and platform), the
name is appended to the hosts lists of both entities' groups (twice per
shared group), while `_meta.hostvars` holds exactly one entry for the
name whose contents — address, role key and role, tags, status — come
from the virtual machine, the entity processed last: the later
`dict.update` overwrites the earlier entry. -/
theorem c10_shared_name_last_entity_wins (a1 a2 r1 r2 : String) (t1 t2 : List String)
    (h1 : splitHead a1 ≠ "undefined") (h2 : splitHead a2 ≠ "undefined") :
    as_ansible_namespace [(Kind.device, mkActiveRecord "host1" a1 "nyc1" "linux" r1 t1),
                          (Kind.vm, mkActiveRecord "host1" a2 "nyc1" "linux" r2 t2)] =
      .ok [("nyc1", .group ["host1", "host1"]), ("linux", .group ["host1", "host1"]),
           ("_meta", .meta (some [("host1",
             [("ansible_host", .str (splitHead a2)), ("netbox_role", .str r2),
              ("netbox_platform", .str "linux"), ("netbox_tags", .strList t2),
              ("netbox_status", .str "active")])]))] := by
  simp [as_ansible_namespace, runEntities, processEntity, mkActiveRecord, statusOf,
    ip_address, h1, h2, runGroupings, processGrouping, rawGet, appendHost, hostvars,
    roleOf, roleKey, slugOrUndefined, tagsOf, statusValueRaw, updateAssoc, assemble,
    groupings, Acc.init, bind, Except.bind, pure, Except.pure]

/-- Witness for C10: a concrete device and virtual machine named `host1`;
the surviving hostvars entry is the virtual machine's. -/
theorem c10_shared_name_last_entity_wins_witness :
    as_ansible_namespace [(Kind.device, mkActiveRecord "host1" "10.0.0.5/24" "nyc1" "linux" "web" ["prod"]),
                          (Kind.vm, mkActiveRecord "host1" "10.0.1.6/24" "nyc1" "linux" "app" ["dev"])] =
      .ok [("nyc1", .group ["host1", "host1"]), ("linux", .group ["host1", "host1"]),
           ("_meta", .meta (some [("host1",
             [("ansible_host", .str (splitHead "10.0.1.6/24")), ("netbox_role", .str "app"),
              ("netbox_platform", .str "linux"), ("netbox_tags", .strList ["dev"]),
              ("netbox_status", .str "active")])]))] :=
  c10_shared_name_last_entity_wins "10.0.0.5/24" "10.0.1.6/24" "web" "app" ["prod"] ["dev"]
    (by decide) (by decide)

end Towerbox
